import Mathlib

/-!
Verification of the bata-server repository's Query & Cascade Engine
specification against the repository's sources.

The repository exposes the engine through type declarations
(`src/am-types/types.ts`) and contains concrete custom-API code
(the check-user login API) plus per-collection schema configs.
Where the engine implementation itself is absent from the repository
(only its declarations exist), the corresponding definitions are
modelled from the specification text, and are marked as such in their
doc comments.
-/

namespace BataServer

/-- JavaScript-style dynamic values, as they flow through the custom-API
code (`src/unnamed/part_001`): `undefined`, `null`, booleans, numbers and
strings. -/
inductive JSVal where
  | vundefined
  | vnull
  | vbool (b : Bool)
  | vnum (n : Int)
  | vstr (s : String)
  deriving DecidableEq, Repr

/-- JavaScript truthiness: `undefined`, `null`, `false`, `0` and the empty
string are falsy; everything else is truthy. -/
def JSVal.truthy : JSVal → Bool
  | .vundefined => false
  | .vnull => false
  | .vbool b => b
  | .vnum n => n != 0
  | .vstr s => s ≠ ""

/-- JavaScript strict equality `===` between dynamic values: values of
different runtime types are never strictly equal. -/
def JSVal.strictEq : JSVal → JSVal → Bool
  | .vundefined, .vundefined => true
  | .vnull, .vnull => true
  | .vbool a, .vbool b => a == b
  | .vnum a, .vnum b => a == b
  | .vstr a, .vstr b => a == b
  | _, _ => false

/-- JavaScript `String(x)` coercion, as used by the password comparison
`String(decryptedPass) !== String(password)` in the check-user API. -/
def JSVal.jsToString : JSVal → String
  | .vundefined => "undefined"
  | .vnull => "null"
  | .vbool b => if b then "true" else "false"
  | .vnum n => toString n
  | .vstr s => s

/-- A stored row: a finite association of field names to dynamic values,
the backend-agnostic row shape of the Storage Adapter contract. -/
abbrev Row : Type := List (String × JSVal)

/-- Field lookup in a row; a missing field reads as JavaScript `undefined`. -/
def Row.getField (r : Row) (k : String) : JSVal :=
  match r.find? (fun p => p.1 == k) with
  | some p => p.2
  | none => .vundefined

/- ## Query Translator: find filters, query and count

Modelled from the spec: the engine implementation of `query` and `count`
(declared at `ICommonApisSchema.query`/`count`, src/am-types/types.ts
lines 1723-1735) is not part of the repository; the filter evaluation and
result shaping below follow the specification's Query Translator section. -/

/-- A backend-agnostic `find` filter: match everything, match one field by
strict equality, or a boolean combination. Modelled from the spec: the
concrete filter language of the absent engine implementation. -/
inductive FindCond where
  | always
  | fieldEq (field : String) (v : JSVal)
  | fand (a b : FindCond)
  | for_ (a b : FindCond)
  | fnot (a : FindCond)
  deriving Repr

/-- Evaluate a `find` filter against a row. -/
def evalFind : FindCond → Row → Bool
  | .always, _ => true
  | .fieldEq k v, r => (r.getField k).strictEq v
  | .fand a b, r => evalFind a r && evalFind b r
  | .for_ a b, r => evalFind a r || evalFind b r
  | .fnot a, r => !(evalFind a r)

/-- Modelled from the spec: the absent `query` implementation — filter the
data set by `find`, then apply `skip` and an optional `limit`. -/
def queryOp (ds : List Row) (find : FindCond) (skip : Nat) (limit : Option Nat) : List Row :=
  let filtered := ds.filter (evalFind find)
  let skipped := filtered.drop skip
  match limit with
  | some l => skipped.take l
  | none => skipped

/-- Modelled from the spec: the absent `count` implementation — the number
of rows of the data set matching the `find` filter. -/
def countOp (ds : List Row) (find : FindCond) : Nat :=
  (ds.filter (evalFind find)).length

/- ## Response Assembler

Modelled from the spec: the Response Assembler implementation behind the
`IAPIResponse` envelope (src/am-types/types.ts lines 2106-2117) is not in
the repository. -/

/-- Error taxonomy entries the claims mention (`EErrorType`-style). -/
inductive RespErrorKind where
  | concurrencyConflict
  | cycleDetected
  | otherError
  deriving DecidableEq, Repr

/-- A structured response error. -/
structure RespError where
  kind : RespErrorKind
  message : String
  deriving DecidableEq, Repr

/-- Status codes carried by every envelope (`EStatusCode`-style). -/
inductive StatusCode where
  | ok
  | badRequest
  | serverError
  deriving DecidableEq, Repr

/-- The response envelope of every operation: `statusCode` and `success`
are mandatory fields, mirroring `IAPIResponse` where only they are
non-optional. -/
structure APIResponse (T : Type) where
  data : Option T
  totalCount : Option Nat
  errors : List RespError
  warnings : List RespError
  statusCode : StatusCode
  success : Bool
  deriving Repr

/-- Modelled from the spec: the Response Assembler — packages an
operation's outcome into the envelope, setting `success` from the
collected errors. -/
def assembleResponse {T : Type} (data : Option T) (totalCount : Option Nat)
    (errors warnings : List RespError) (statusCode : StatusCode) : APIResponse T :=
  { data := data
    totalCount := totalCount
    errors := errors
    warnings := warnings
    statusCode := statusCode
    success := errors.isEmpty }

/- ## Array-Operation Executor

Modelled from the spec: the executor behind `EArrayOperation`
(src/am-types/types.ts lines 1630-1643) and `IArrayOperation`
(lines 1289-1333) is not in the repository; the semantics below follow the
declarations' documentation (push appends, addToSet deduplicates by deep
equality, pullAll removes all listed values, pop direction -1 removes the
first element and 1 removes the last). -/

/-- `push`: append the given elements to the end of the array. -/
def arrPush (xs : List JSVal) (dataToPush : List JSVal) : List JSVal :=
  xs ++ dataToPush

/-- `addToSet`: append the value only when no deeply-equal element is
already present. -/
def arrAddToSet (xs : List JSVal) (v : JSVal) : List JSVal :=
  if v ∈ xs then xs else xs ++ [v]

/-- `pullAll`: remove every occurrence of each listed value. -/
def arrPullAll (xs : List JSVal) (dataToPull : List JSVal) : List JSVal :=
  xs.filter (fun x => decide (x ∉ dataToPull))

/-- `pop`: direction `-1` removes the first element, `1` removes the
last. -/
def arrPop (direction : Int) (xs : List JSVal) : List JSVal :=
  if direction = -1 then xs.tail else xs.dropLast

/- ## Concurrency Control Guard

Modelled from the spec: the guard implementation behind
`ISchemaProperty.isConcurrencyControlField` (src/am-types/types.ts lines
568-583) and `skipConcurrencyControl` (lines 2005-2006) is not in the
repository; the behaviour below follows the specification's Concurrency
Control Guard section. -/

/-- A row of a collection whose schema defines a concurrency-control
field: the version value plus the remaining fields. -/
structure GuardRow where
  version : Int
  fields : Row
  deriving DecidableEq, Repr

/-- The monotonic default next-version generator (`v + 1`). -/
def defaultNextVersion (v : Int) : Int := v + 1

/-- Modelled from the spec: the Concurrency Control Guard applied to an
update/replace/master-save write. When not skipped, the version submitted
in the payload is compared against the stored version: on match the
written row carries the generator-defined next version, on mismatch the
operation fails with `concurrencyConflict`. -/
def applyConcurrencyGuard (stored payload : GuardRow) (submitted : Int)
    (skipConcurrencyControl : Bool) (gen : Int → Int) : Except RespErrorKind GuardRow :=
  if skipConcurrencyControl then .ok payload
  else if submitted = stored.version then
    .ok { payload with version := gen stored.version }
  else .error .concurrencyConflict

/-- The stored row after a guarded write attempt: the written row on
success, the unchanged stored row on failure. -/
def storedAfterWrite (stored : GuardRow) (result : Except RespErrorKind GuardRow) : GuardRow :=
  match result with
  | .ok written => written
  | .error _ => stored

/- ## Relationship Resolver: deep population and cycle policy

Modelled from the spec: the Relationship Resolver behind
`ICollectionIdentity.noCycle` (src/am-types/types.ts lines 1922-1939) and
`IApiParamsDeepFormat` is not in the repository; the resolver below
follows the specification's Relationship Resolver section, with an
explicit path stack of visited (collection, key) pairs. -/

/-- A (collection, key) pair on the active resolution path. -/
structure CollKey where
  collection : String
  key : String
  deriving DecidableEq, Repr

/-- A `deep` specification node: the relationship hop it describes and its
nested children. -/
inductive DeepNode where
  | node (ck : CollKey) (children : List DeepNode)

/-- The resolved data attached for one `deep` node: the fetched rows and
the resolved children. A truncated cycle branch is `branch ck [] []` — an
empty result. -/
inductive DeepResult where
  | branch (ck : CollKey) (rows : List Row) (children : List DeepResult)
  deriving Repr

mutual
/-- Modelled from the spec: the absent deep-population resolver. A node
whose (collection, key) pair already appears on the active path is a
cycle: with `noCycle` unset this fails with a structured cycle error
identifying the path, with `noCycle` set the branch is truncated with an
empty result. Otherwise the node's rows are fetched and the children are
resolved with the node pushed onto the path. -/
def resolveDeep (fetch : CollKey → List Row) (noCycle : Bool)
    (path : List CollKey) : DeepNode → Except (List CollKey) DeepResult
  | .node ck children =>
    if ck ∈ path then
      if noCycle then .ok (.branch ck [] [])
      else .error (path ++ [ck])
    else
      match resolveDeepList fetch noCycle (path ++ [ck]) children with
      | .ok cs => .ok (.branch ck (fetch ck) cs)
      | .error e => .error e

/-- Resolve a list of sibling `deep` nodes, failing on the first cycle
error. -/
def resolveDeepList (fetch : CollKey → List Row) (noCycle : Bool)
    (path : List CollKey) : List DeepNode → Except (List CollKey) (List DeepResult)
  | [] => .ok []
  | n :: ns =>
    match resolveDeep fetch noCycle path n with
    | .ok r =>
      match resolveDeepList fetch noCycle path ns with
      | .ok rs => .ok (r :: rs)
      | .error e => .error e
    | .error e => .error e
end

/- ## Distinct ordering

Modelled from the spec: the implementation behind
`IApiParamsDistinct.order` (src/am-types/types.ts lines 2028-2032, comment
`asc/desc/dsc , true/false, yes/no, 1/0`) is not in the repository. -/

/-- Sort direction of a `distinct` result. -/
inductive SortOrder where
  | asc
  | desc
  deriving DecidableEq, Repr

/-- ASCII lowercasing of a string, character by character. -/
def lowerStr (s : String) : String := ⟨s.data.map Char.toLower⟩

/-- The order tokens recognized as descending: `desc`/`dsc` and the
negative boolean-like aliases, compared after lowercasing. -/
def descOrderTokens : List String := ["desc", "dsc", "false", "no", "0"]

/-- The order tokens recognized as ascending: `asc` and the affirmative
boolean-like aliases, compared after lowercasing. -/
def ascOrderTokens : List String := ["asc", "true", "yes", "1"]

/-- Modelled from the spec: parsing of the `distinct` `order` parameter —
case-insensitive, boolean-like aliases accepted, and every unrecognized
value treated as ascending. -/
def parseDistinctOrder (s : String) : SortOrder :=
  if lowerStr s ∈ descOrderTokens then .desc else .asc

/- ## Deep fetching: chunked id round-trips and per-parent pagination

Modelled from the spec: the fetch machinery behind
`IApiParamsDeepFormat.fetchingTechnique` and `fetchingTechniqueSettings`
(src/am-types/types.ts lines 1107-1138) is not in the repository. -/

/-- The default chunk size of the `chunk` fetching technique. -/
def defaultChunkSize : Nat := 1000

/-- Modelled from the spec: split the collected ids into chunks of at most
`size` ids, one chunk per database round-trip. A zero chunk size or an
empty id list degenerates to at most one round-trip. -/
def chunkIds {α : Type} (size : Nat) (ids : List α) : List (List α) :=
  match ids, size with
  | [], _ => []
  | a :: tl, 0 => [a :: tl]
  | a :: tl, szp + 1 =>
    (a :: tl).take (szp + 1) :: chunkIds (szp + 1) ((a :: tl).drop (szp + 1))
termination_by ids.length
decreasing_by
  simp only [List.length_drop, List.length_cons]
  omega

/-- Pagination applied to a fetched row list: drop `skip`, then keep at
most `limit` rows when a limit is given. -/
def applyPagination {α : Type} (xs : List α) (skip : Nat) (limit : Option Nat) : List α :=
  match limit with
  | some l => (xs.drop skip).take l
  | none => xs.drop skip

/-- Modelled from the spec: the `one_by_one` fetching technique — one
query per parent, so `skip`/`limit` apply to each parent's own group of
related rows. Rows are identified by their ids. -/
def oneByOneFetch (parents : List Nat) (fetchRelated : Nat → List Nat)
    (skip : Nat) (limit : Option Nat) : List (List Nat) :=
  parents.map (fun p => applyPagination (fetchRelated p) skip limit)

/-- Modelled from the spec: a single batched query for all parents at
once — `skip`/`limit` can only act globally on the concatenated result. -/
def batchedFetch (parents : List Nat) (fetchRelated : Nat → List Nat)
    (skip : Nat) (limit : Option Nat) : List Nat :=
  applyPagination ((parents.map fetchRelated).flatten) skip limit

/-- A concrete two-parent data set: parent 1 owns rows 10 and 11, parent 2
owns rows 20 and 21. -/
def exampleFetchRelated : Nat → List Nat := fun p =>
  if p = 1 then [10, 11] else if p = 2 then [20, 21] else []

/- ## Master-Save leaf key-value selection

Translated from the documented semantics of the key-generation flags of
`ISchemaProperty` (src/am-types/types.ts lines 546-566): both AM rules
have no effect when `isAutoIncrementByDB` is true; `isAutoGenerateByAM`
has higher priority than `isAutoIncrementByAM` and generates a value only
when none is provided in the request. -/

/-- The generator kinds of `EValueGeneratorType` (types.ts lines
605-609). -/
inductive GenValueType where
  | GUID_UUID
  | ObjectID
  | ULID
  | ShortUUID
  deriving DecidableEq, Repr

/-- `IIsAutoIncrementByAM` (types.ts lines 596-599): counter start and
optional step, the step defaulting to 1. -/
structure AutoIncSettings where
  start : Int
  step : Option Int
  deriving DecidableEq, Repr

/-- The key-generation flags a schema property can carry. -/
structure KeyFieldSchema where
  isAutoIncrementByDB : Bool
  isAutoGenerateByAM : Option GenValueType
  isAutoIncrementByAM : Option AutoIncSettings
  deriving DecidableEq, Repr

/-- The value written to a key field during a leaf save: delegated to the
database, generated by the engine, taken from the engine counter, taken
from the payload, or absent. -/
inductive KeyValueChoice where
  | dbAssigned
  | amGenerated (t : GenValueType)
  | amCounter (next : Int)
  | supplied (v : JSVal)
  | absent
  deriving DecidableEq, Repr

/-- The next engine-counter value: the configured start when no counter
exists yet, otherwise the current value plus the step (default 1). -/
def nextCounterValue (cfg : AutoIncSettings) (current : Option Int) : Int :=
  match current with
  | none => cfg.start
  | some c => c + cfg.step.getD 1

/-- The value choice for one key field of one leaf save, following the
documented flag semantics: DB auto-increment first; otherwise AM
auto-generation, which yields the generated value only when the payload
supplies none (types.ts line 562) and the supplied value otherwise;
otherwise the AM counter; otherwise the supplied value if any. -/
def chooseKeyValue (s : KeyFieldSchema) (suppliedVal : Option JSVal)
    (counter : Option Int) : KeyValueChoice :=
  if s.isAutoIncrementByDB then .dbAssigned
  else
    match s.isAutoGenerateByAM, suppliedVal with
    | some t, none => .amGenerated t
    | some _, some v => .supplied v
    | none, _ =>
      match s.isAutoIncrementByAM with
      | some cfg => .amCounter (nextCounterValue cfg counter)
      | none =>
        match suppliedVal with
        | some v => .supplied v
        | none => .absent

/- ## The check-user custom API

Translated from `src/unnamed/part_001`: the `main` function of the
check-user login API, with each external call (`g.sys.db.getById`,
`g.sys.system.getSecret`, `g.sys.system.decrypt`,
`g.sys.system.getToken`) represented by its outcome — a value or a thrown
error — in an environment record. -/

/-- The schema field types (`EType`) used by the per-collection schema
configs. -/
inductive EType where
  | string
  | number
  | boolean
  | date
  deriving DecidableEq, Repr

/-- The declared type of the `active` field in the `public.users` schema
(`src/src/admin/Schemas/Bata -- bata_db -- public.users/public.users.config.ts`
line 40: `active: EType.boolean`). -/
def usersSchemaActiveType : EType := .boolean

/-- Whether a dynamic value conforms to a declared schema field type. -/
def conformsTo (t : EType) (v : JSVal) : Bool :=
  match t, v with
  | .string, .vstr _ => true
  | .number, .vnum _ => true
  | .boolean, .vbool _ => true
  | .date, .vstr _ => true
  | .date, .vnum _ => true
  | _, _ => false

/-- A users row as the check-user API reads it: the fields the code
touches, each a dynamic value. -/
structure UserRow where
  id : JSVal
  username : JSVal
  email : JSVal
  user_type : JSVal
  unit_id : JSVal
  active : JSVal
  password : JSVal
  deriving DecidableEq, Repr

/-- What `g.sys.db.getById` yields when it does not throw: a single
object (possibly null) or an array of rows, distinguished by the code's
`Array.isArray(dbResult)` check. -/
inductive DBResult where
  | single (row : Option UserRow)
  | arr (rows : List UserRow)
  deriving DecidableEq, Repr

/-- The `user` the code derives from the lookup result:
`Array.isArray(dbResult) ? dbResult[0] : dbResult`. -/
def userFromDbResult : DBResult → Option UserRow
  | .single row => row
  | .arr rows => rows.head?

/-- The outcomes of every external call the check-user API makes, plus
the request body: one environment fixes one complete execution. An
`Except.error` value models the call throwing. -/
structure CheckUserEnv where
  reqUsername : JSVal
  reqPassword : JSVal
  dbGetById : Except Unit DBResult
  secretCommon : Except Unit JSVal
  decrypt : JSVal → JSVal → Except Unit String
  secretAdminPass : String → Except Unit JSVal
  getToken : Except Unit (List JSVal)

/-- The projection of the user row the success response returns:
`{id, username, email, user_type, unit_id}`. -/
structure UserPublic where
  id : JSVal
  username : JSVal
  email : JSVal
  user_type : JSVal
  unit_id : JSVal
  deriving DecidableEq, Repr

/-- The object the check-user API returns. -/
structure CheckUserOutput where
  valid : Bool
  user : Option UserPublic
  amToken : Option JSVal
  amDbToken : Option JSVal
  deriving DecidableEq, Repr

/-- The failure-path return object `\x7b valid: false \x7d`. -/
def invalidOutput : CheckUserOutput :=
  { valid := false, user := none, amToken := none, amDbToken := none }

/-- The password value after the inner try/catch around `decrypt`: the
decrypted string on success, the raw stored value when decryption
throws. -/
def decryptedPassOf (env : CheckUserEnv) (user : UserRow) (secret : JSVal) : JSVal :=
  match env.decrypt user.password secret with
  | .ok s => .vstr s
  | .error _ => user.password

/-- The body of the check-user `main` (the `try` block of
`src/unnamed/part_001` lines 11-117): an `Except.error` result models an
exception escaping to the outer catch. -/
def checkUserBody (env : CheckUserEnv) : Except Unit CheckUserOutput :=
  let username := if env.reqUsername.truthy then env.reqUsername else .vnull
  let password := if env.reqPassword.truthy then env.reqPassword else .vnull
  if !username.truthy || !password.truthy then .ok invalidOutput
  else
    match env.dbGetById with
    | .error e => .error e
    | .ok dbResult =>
      match userFromDbResult dbResult with
      | none => .ok invalidOutput
      | some user =>
        if !(user.active.strictEq (.vstr "active")) then .ok invalidOutput
        else
          match env.secretCommon with
          | .error e => .error e
          | .ok encryptSecret =>
            let decryptedPass := decryptedPassOf env user encryptSecret
            if decryptedPass.jsToString ≠ password.jsToString then .ok invalidOutput
            else if !user.user_type.truthy then .ok invalidOutput
            else
              match env.secretAdminPass
                  ("common.apiUserPasswords." ++ user.user_type.jsToString) with
              | .error e => .error e
              | .ok adminUserPass =>
                if !adminUserPass.truthy then .ok invalidOutput
                else
                  match env.getToken with
                  | .error e => .error e
                  | .ok outputArr =>
                    .ok { valid := true
                          user := some ⟨user.id, user.username, user.email,
                            user.user_type, user.unit_id⟩
                          amToken := some (outputArr.getD 0 .vundefined)
                          amDbToken := some (outputArr.getD 1 .vundefined) }

/-- The check-user `main`: the body wrapped in the outer try/catch of
`src/unnamed/part_001` lines 118-121, which turns any escaped exception
into `\x7b valid: false \x7d`. -/
def checkUserMain (env : CheckUserEnv) : CheckUserOutput :=
  match checkUserBody env with
  | .ok r => r
  | .error _ => invalidOutput

end BataServer

namespace BataServer

/-- Claim C3: For every data set and filter, `count()` with a filter returns the
length of an unbounded `query()` (no skip, no limit) with the same filter
against the same unchanged data set. -/
theorem count_eq_unbounded_query_length (ds : List Row) (find : FindCond) :
    countOp ds find = (queryOp ds find 0 none).length := by
  simp [countOp, queryOp]

/-- Claim C4: Every envelope produced by the Response Assembler satisfies the
invariant: `success` is `false` iff the `errors` array is non-empty, and
the mandatory `statusCode` field carries the supplied status code. -/
theorem response_envelope_invariant {T : Type} (data : Option T)
    (totalCount : Option Nat) (errors warnings : List RespError) (sc : StatusCode) :
    ((assembleResponse data totalCount errors warnings sc).success = false ↔ errors ≠ []) ∧
    (assembleResponse data totalCount errors warnings sc).statusCode = sc := by
  constructor
  · simp [assembleResponse, List.isEmpty_iff]
  · rfl

/-- Witness for C4 at concrete inputs: an envelope assembled with one
error is unsuccessful and keeps its status code. -/
theorem response_envelope_invariant_witness :
    ((assembleResponse (some (1 : Nat)) none [⟨.otherError, "boom"⟩] []
        .serverError).success = false ↔
      ([⟨RespErrorKind.otherError, "boom"⟩] : List RespError) ≠ []) ∧
    (assembleResponse (some (1 : Nat)) none [⟨.otherError, "boom"⟩] []
      .serverError).statusCode = .serverError :=
  response_envelope_invariant (some (1 : Nat)) none [⟨.otherError, "boom"⟩] []
    .serverError

/-- Claim C7: `push` of one element then `pop` with direction 1 on an initially
empty array leaves the length unchanged; `addToSet` of an already-present
value does not increase the length; `pullAll` removes every occurrence of
each listed value. -/
theorem array_operations_laws (v : JSVal) (xs : List JSVal) (vals : List JSVal) :
    (arrPop 1 (arrPush [] [v])).length = ([] : List JSVal).length ∧
    (v ∈ xs → (arrAddToSet xs v).length = xs.length) ∧
    (∀ w ∈ vals, w ∉ arrPullAll xs vals) := by
  refine ⟨?_, ?_, ?_⟩
  · simp [arrPop, arrPush]
  · intro hv
    simp [arrAddToSet, hv]
  · intro w hw hmem
    simp only [arrPullAll, List.mem_filter, decide_eq_true_eq] at hmem
    exact hmem.2 hw

/-- Witness for C7 at concrete inputs: the membership hypotheses are
discharged on explicit arrays. -/
theorem array_operations_laws_witness :
    (JSVal.vnum 3 ∈ [JSVal.vnum 3, JSVal.vnum 4] ∧
      (arrAddToSet [JSVal.vnum 3, JSVal.vnum 4] (JSVal.vnum 3)).length =
        ([JSVal.vnum 3, JSVal.vnum 4] : List JSVal).length) ∧
    JSVal.vnum 3 ∉ arrPullAll [JSVal.vnum 3, JSVal.vnum 4] [JSVal.vnum 3] := by
  have h := array_operations_laws (JSVal.vnum 3) [JSVal.vnum 3, JSVal.vnum 4] [JSVal.vnum 3]
  refine ⟨⟨by decide, h.2.1 (by decide)⟩, h.2.2 (JSVal.vnum 3) (by decide)⟩

/-- Claim C1: with concurrency control in effect (not skipped), a write
whose submitted version equals the stored version succeeds and the written
row carries the generator-defined next version (`v + 1` under the default
generator); a write with any other submitted version fails with
`concurrencyConflict` and the stored row is left unchanged. -/
theorem concurrency_guard_contract (stored payload : GuardRow) (submitted : Int)
    (gen : Int → Int) :
    (submitted = stored.version →
      applyConcurrencyGuard stored payload submitted false gen =
        .ok { payload with version := gen stored.version } ∧
      applyConcurrencyGuard stored payload submitted false defaultNextVersion =
        .ok { payload with version := stored.version + 1 }) ∧
    (submitted ≠ stored.version →
      applyConcurrencyGuard stored payload submitted false gen =
        .error .concurrencyConflict ∧
      storedAfterWrite stored (applyConcurrencyGuard stored payload submitted false gen) =
        stored) := by
  constructor
  · intro h
    constructor <;> simp [applyConcurrencyGuard, h, defaultNextVersion]
  · intro h
    constructor <;> simp [applyConcurrencyGuard, storedAfterWrite, h]

/-- Witness for C1 at concrete inputs: submitted version 5 against stored
version 5 succeeds and bumps the version to 6; submitted version 7 against
stored version 5 fails with `concurrencyConflict` and storage is
unchanged. -/
theorem concurrency_guard_contract_witness :
    applyConcurrencyGuard ⟨5, []⟩ ⟨0, []⟩ 5 false defaultNextVersion =
      .ok (⟨6, []⟩ : GuardRow) ∧
    applyConcurrencyGuard ⟨5, []⟩ ⟨0, []⟩ 7 false defaultNextVersion =
      .error .concurrencyConflict ∧
    storedAfterWrite ⟨5, []⟩
      (applyConcurrencyGuard ⟨5, []⟩ ⟨0, []⟩ 7 false defaultNextVersion) = ⟨5, []⟩ := by
  have hok := (concurrency_guard_contract ⟨5, []⟩ ⟨0, []⟩ 5 defaultNextVersion).1 rfl
  have hko := (concurrency_guard_contract ⟨5, []⟩ ⟨0, []⟩ 7 defaultNextVersion).2 (by decide)
  exact ⟨hok.2, hko.1, hko.2⟩

/-- Claim C5: a deep-population node whose (collection, key) pair already
appears on the active resolution path fails with a structured cycle error
identifying the path when `noCycle` is not set, and is truncated with an
empty result (no error) when `noCycle` is true. -/
theorem deep_cycle_policy (fetch : CollKey → List Row) (path : List CollKey)
    (ck : CollKey) (children : List DeepNode) (h : ck ∈ path) :
    resolveDeep fetch false path (.node ck children) = .error (path ++ [ck]) ∧
    resolveDeep fetch true path (.node ck children) = .ok (.branch ck [] []) := by
  constructor <;> simp [resolveDeep, h]

/-- Witness for C5 at a concrete revisited (collection, key) pair. -/
theorem deep_cycle_policy_witness :
    (⟨"orders", "id"⟩ : CollKey) ∈ [(⟨"orders", "id"⟩ : CollKey)] ∧
    resolveDeep (fun _ => []) false [⟨"orders", "id"⟩] (.node ⟨"orders", "id"⟩ []) =
      .error [⟨"orders", "id"⟩, ⟨"orders", "id"⟩] ∧
    resolveDeep (fun _ => []) true [⟨"orders", "id"⟩] (.node ⟨"orders", "id"⟩ []) =
      .ok (.branch ⟨"orders", "id"⟩ [] []) := by
  have h := deep_cycle_policy (fun _ => []) [⟨"orders", "id"⟩] ⟨"orders", "id"⟩ []
    (by decide)
  exact ⟨by decide, h.1, h.2⟩

/-- Claim C8: the `distinct` order parameter accepts `asc`/`desc`
case-insensitively as well as the boolean-like aliases (`yes`/`no`,
`1`/`0`), and every unrecognized order value results in ascending
order. -/
theorem distinct_order_parsing :
    (∀ s : String, lowerStr s = "asc" → parseDistinctOrder s = .asc) ∧
    (∀ s : String, lowerStr s = "desc" → parseDistinctOrder s = .desc) ∧
    parseDistinctOrder "yes" = .asc ∧
    parseDistinctOrder "no" = .desc ∧
    parseDistinctOrder "1" = .asc ∧
    parseDistinctOrder "0" = .desc ∧
    (∀ s : String, lowerStr s ∉ descOrderTokens ++ ascOrderTokens →
      parseDistinctOrder s = .asc) := by
  refine ⟨?_, ?_, by decide, by decide, by decide, by decide, ?_⟩
  · intro s h
    simp [parseDistinctOrder, h, descOrderTokens]
  · intro s h
    simp [parseDistinctOrder, h, descOrderTokens]
  · intro s h
    have hnd : lowerStr s ∉ descOrderTokens := fun hm => h (List.mem_append_left _ hm)
    simp [parseDistinctOrder, hnd]

/-- Witness for C8 at concrete inputs: mixed-case `asc`/`desc` and an
unrecognized value. -/
theorem distinct_order_parsing_witness :
    parseDistinctOrder "ASC" = .asc ∧
    parseDistinctOrder "DeSc" = .desc ∧
    parseDistinctOrder "sideways" = .asc := by
  exact ⟨distinct_order_parsing.1 "ASC" (by decide),
    distinct_order_parsing.2.1 "DeSc" (by decide),
    distinct_order_parsing.2.2.2.2.2.2 "sideways" (by decide)⟩

/-- Helper: chunking never loses or reorders ids — flattening the chunks
restores the original id list. -/
theorem chunkIds_flatten {α : Type} (size : Nat) (ids : List α) :
    (chunkIds size ids).flatten = ids := by
  have main : ∀ n (xs : List α), xs.length ≤ n → (chunkIds size xs).flatten = xs := by
    intro n
    induction n with
    | zero =>
      intro xs hx
      have hnil : xs = [] := List.length_eq_zero.mp (Nat.le_zero.mp hx)
      subst hnil
      simp [chunkIds]
    | succ n ih =>
      intro xs hx
      cases xs with
      | nil => simp [chunkIds]
      | cons a tl =>
        cases size with
        | zero => simp [chunkIds]
        | succ szp =>
          have hlen : ((a :: tl).drop (szp + 1)).length ≤ n := by
            simp only [List.length_drop, List.length_cons]
            simp only [List.length_cons] at hx
            omega
          rw [chunkIds, List.flatten_cons, ih ((a :: tl).drop (szp + 1)) hlen,
            List.take_append_drop]
  exact main ids.length ids le_rfl

/-- Helper: with a positive chunk size, every chunk holds at most `size`
ids. -/
theorem chunkIds_length_le {α : Type} (size : Nat) (hs : 0 < size) (ids : List α) :
    ∀ c ∈ chunkIds size ids, c.length ≤ size := by
  have main : ∀ n (xs : List α), xs.length ≤ n →
      ∀ c ∈ chunkIds size xs, c.length ≤ size := by
    intro n
    induction n with
    | zero =>
      intro xs hx
      have hnil : xs = [] := List.length_eq_zero.mp (Nat.le_zero.mp hx)
      subst hnil
      simp [chunkIds]
    | succ n ih =>
      intro xs hx c hc
      cases xs with
      | nil => simp [chunkIds] at hc
      | cons a tl =>
        cases size with
        | zero => omega
        | succ szp =>
          rw [chunkIds] at hc
          rcases List.mem_cons.mp hc with hhead | htail
          · subst hhead
            simp [List.length_take]
          · have hlen : ((a :: tl).drop (szp + 1)).length ≤ n := by
              simp only [List.length_drop, List.length_cons]
              simp only [List.length_cons] at hx
              omega
            exact ih ((a :: tl).drop (szp + 1)) hlen c htail
  exact main ids.length ids le_rfl

/-- Helper: a single global slice of the flattened row list
`[10, 11, 20, 21]` that contains both 10 (parent 1's first row) and 20
(parent 2's first row) necessarily also contains 11 (parent 1's second
row): a contiguous slice cannot skip the middle. -/
theorem slice_cannot_skip_middle (s l : Nat)
    (h10 : 10 ∈ (([10, 11, 20, 21] : List Nat).drop s).take l)
    (h20 : 20 ∈ (([10, 11, 20, 21] : List Nat).drop s).take l) :
    11 ∈ (([10, 11, 20, 21] : List Nat).drop s).take l := by
  match s with
  | 0 =>
    match l with
    | 0 => exact absurd h20 (by decide)
    | 1 => exact absurd h20 (by decide)
    | 2 => exact absurd h20 (by decide)
    | n + 3 =>
      rw [show (n : Nat) + 3 = (n + 2) + 1 from rfl]
      rw [List.drop_zero] at h10 h20 ⊢
      rw [List.take_succ_cons, show (n : Nat) + 2 = (n + 1) + 1 from rfl,
        List.take_succ_cons]
      simp
  | 1 => exact absurd (List.take_subset _ _ h10) (by decide)
  | 2 => exact absurd (List.take_subset _ _ h10) (by decide)
  | 3 => exact absurd (List.take_subset _ _ h10) (by decide)
  | n + 4 =>
    have hd : ([10, 11, 20, 21] : List Nat).drop (n + 4) = [] :=
      List.drop_eq_nil_of_le (by simp)
    rw [hd] at h10
    exact absurd h10 (by simp)

/-- Claim C6: deep-population target rows are fetched in chunks of 1000
ids per round-trip by default (chunks partition the id list and respect
the size bound), and per-parent `limit`/`skip` requires the `one_by_one`
technique: one query per parent paginates each parent's group, while any
single batched query — which can only slice the concatenated rows
globally — cannot return exactly each parent's paginated group, shown on
a two-parent data set where every global slice containing both parents'
first rows also contains parent 1's unwanted second row. -/
theorem deep_fetch_chunking_and_per_parent_pagination :
    defaultChunkSize = 1000 ∧
    (∀ ids : List Nat, (chunkIds defaultChunkSize ids).flatten = ids) ∧
    (∀ ids : List Nat, ∀ c ∈ chunkIds defaultChunkSize ids,
      c.length ≤ defaultChunkSize) ∧
    oneByOneFetch [1, 2] exampleFetchRelated 0 (some 1) = [[10], [20]] ∧
    (∀ skip limit : Nat,
      10 ∈ batchedFetch [1, 2] exampleFetchRelated skip (some limit) →
      20 ∈ batchedFetch [1, 2] exampleFetchRelated skip (some limit) →
      11 ∈ batchedFetch [1, 2] exampleFetchRelated skip (some limit)) := by
  refine ⟨rfl, fun ids => chunkIds_flatten defaultChunkSize ids,
    fun ids => chunkIds_length_le defaultChunkSize (by decide) ids, by decide, ?_⟩
  intro skip limit h10 h20
  have hb : batchedFetch [1, 2] exampleFetchRelated skip (some limit) =
      (([10, 11, 20, 21] : List Nat).drop skip).take limit := rfl
  rw [hb] at h10 h20 ⊢
  exact slice_cannot_skip_middle skip limit h10 h20

/-- Witness for C6 at concrete inputs: the global slice keeping rows 10,
11 and 20 (skip 0, limit 3) contains both parents' first rows, so by the
theorem it must contain row 11 as well. -/
theorem deep_fetch_chunking_witness :
    10 ∈ batchedFetch [1, 2] exampleFetchRelated 0 (some 3) ∧
    20 ∈ batchedFetch [1, 2] exampleFetchRelated 0 (some 3) ∧
    11 ∈ batchedFetch [1, 2] exampleFetchRelated 0 (some 3) := by
  refine ⟨by decide, by decide, ?_⟩
  exact deep_fetch_chunking_and_per_parent_pagination.2.2.2.2 0 3 (by decide) (by decide)

/-- Claim C2 counterexample: the claim that a payload-supplied key value
is used only when none of the generation rules apply is false — with
`isAutoGenerateByAM` configured (a generation rule applying to the field)
and a value supplied in the payload, the supplied value is used, because
AM auto-generation only fills values not provided in the request
(src/am-types/types.ts line 562). -/
theorem key_priority_claim_counterexample :
    ¬ (∀ (s : KeyFieldSchema) (v : JSVal) (counter : Option Int),
        chooseKeyValue s (some v) counter = .supplied v →
        s.isAutoIncrementByDB = false ∧ s.isAutoGenerateByAM = none ∧
        s.isAutoIncrementByAM = none) := by
  intro hclaim
  have h := hclaim ⟨false, some .GUID_UUID, none⟩ (.vstr "user-supplied") none rfl
  exact absurd h.2.1 (by decide)

/-- Claim C2 (amended): leaf key-value selection follows the priority
DB auto-increment > AM auto-generate > AM auto-increment > supplied value,
except that when AM auto-generation is the governing rule a
payload-supplied value takes precedence (values are only generated when
not provided in the request); a supplied value is also used when no
generation rule applies. -/
theorem key_priority_amended (s : KeyFieldSchema) (v : JSVal) (counter : Option Int) :
    (s.isAutoIncrementByDB = true →
      chooseKeyValue s (some v) counter = .dbAssigned ∧
      chooseKeyValue s none counter = .dbAssigned) ∧
    (∀ t, s.isAutoIncrementByDB = false → s.isAutoGenerateByAM = some t →
      chooseKeyValue s none counter = .amGenerated t ∧
      chooseKeyValue s (some v) counter = .supplied v) ∧
    (∀ cfg, s.isAutoIncrementByDB = false → s.isAutoGenerateByAM = none →
      s.isAutoIncrementByAM = some cfg →
      chooseKeyValue s (some v) counter = .amCounter (nextCounterValue cfg counter) ∧
      chooseKeyValue s none counter = .amCounter (nextCounterValue cfg counter)) ∧
    (s.isAutoIncrementByDB = false → s.isAutoGenerateByAM = none →
      s.isAutoIncrementByAM = none →
      chooseKeyValue s (some v) counter = .supplied v) := by
  refine ⟨?_, ?_, ?_, ?_⟩ <;> intros <;> simp_all [chooseKeyValue]

/-- Witness for C2 at concrete schemas: each priority branch evaluated on
explicit flag combinations. -/
theorem key_priority_amended_witness :
    chooseKeyValue ⟨true, none, none⟩ (some (.vnum 9)) none = .dbAssigned ∧
    chooseKeyValue ⟨false, some .ULID, none⟩ none none = .amGenerated .ULID ∧
    chooseKeyValue ⟨false, some .ULID, none⟩ (some (.vnum 9)) none = .supplied (.vnum 9) ∧
    chooseKeyValue ⟨false, none, some ⟨1, some 2⟩⟩ (some (.vnum 9)) none = .amCounter 1 ∧
    chooseKeyValue ⟨false, none, none⟩ (some (.vnum 9)) none = .supplied (.vnum 9) := by
  have h1 := (key_priority_amended ⟨true, none, none⟩ (.vnum 9) none).1 rfl
  have h2 := (key_priority_amended ⟨false, some .ULID, none⟩ (.vnum 9) none).2.1 .ULID rfl rfl
  have h3 := (key_priority_amended ⟨false, none, some ⟨1, some 2⟩⟩ (.vnum 9) none).2.2.1
    ⟨1, some 2⟩ rfl rfl rfl
  have h4 := (key_priority_amended ⟨false, none, none⟩ (.vnum 9) none).2.2.2 rfl rfl rfl
  exact ⟨h1.1, h2.1, h2.2, h3.1, h4⟩

/-- Helper: the JavaScript `null` value is falsy. -/
theorem truthy_vnull : JSVal.vnull.truthy = false := rfl

/-- Claim C9: the check-user API never lets an exception escape — any
error thrown by the database or secret-store calls is caught and returns
`valid: false` — and the result is valid only when every success
condition held: username and password present, user found, user active,
password match, user type assigned, admin password found, and token
generation succeeded. Contrapositively, every failure path returns an
object whose `valid` field is false. -/
theorem checkUser_fails_closed (env : CheckUserEnv) :
    (∀ e, checkUserBody env = .error e → checkUserMain env = invalidOutput) ∧
    ((checkUserMain env).valid = true →
      env.reqUsername.truthy = true ∧
      env.reqPassword.truthy = true ∧
      ∃ dbr user secret adminPass toks,
        env.dbGetById = .ok dbr ∧
        userFromDbResult dbr = some user ∧
        user.active.strictEq (.vstr "active") = true ∧
        env.secretCommon = .ok secret ∧
        (decryptedPassOf env user secret).jsToString = env.reqPassword.jsToString ∧
        user.user_type.truthy = true ∧
        env.secretAdminPass
          ("common.apiUserPasswords." ++ user.user_type.jsToString) = .ok adminPass ∧
        adminPass.truthy = true ∧
        env.getToken = .ok toks) := by
  constructor
  · intro e he
    simp [checkUserMain, he]
  · intro hvalid
    by_cases hu : env.reqUsername.truthy
    case neg =>
      exfalso
      have hu' : env.reqUsername.truthy = false := Bool.eq_false_iff.mpr hu
      simp [checkUserMain, checkUserBody, hu', truthy_vnull, invalidOutput] at hvalid
    by_cases hp : env.reqPassword.truthy
    case neg =>
      exfalso
      have hp' : env.reqPassword.truthy = false := Bool.eq_false_iff.mpr hp
      simp [checkUserMain, checkUserBody, hu, hp', truthy_vnull, invalidOutput] at hvalid
    refine ⟨hu, hp, ?_⟩
    match hdb : env.dbGetById with
    | .error e =>
      exfalso
      simp [checkUserMain, checkUserBody, hu, hp, hdb, invalidOutput] at hvalid
    | .ok dbr =>
      match huser : userFromDbResult dbr with
      | none =>
        exfalso
        simp [checkUserMain, checkUserBody, hu, hp, hdb, huser, invalidOutput] at hvalid
      | some user =>
        by_cases hact : user.active.strictEq (.vstr "active") = true
        case neg =>
          exfalso
          simp [checkUserMain, checkUserBody, hu, hp, hdb, huser, hact,
            invalidOutput] at hvalid
        match hsec : env.secretCommon with
        | .error e =>
          exfalso
          simp [checkUserMain, checkUserBody, hu, hp, hdb, huser, hact, hsec,
            invalidOutput] at hvalid
        | .ok secret =>
          by_cases hpass :
            (decryptedPassOf env user secret).jsToString = env.reqPassword.jsToString
          case neg =>
            exfalso
            simp [checkUserMain, checkUserBody, hu, hp, hdb, huser, hact, hsec,
              hpass, invalidOutput] at hvalid
          by_cases htype : user.user_type.truthy
          case neg =>
            exfalso
            simp [checkUserMain, checkUserBody, hu, hp, hdb, huser, hact, hsec,
              hpass, htype, invalidOutput] at hvalid
          match hadm : env.secretAdminPass
              ("common.apiUserPasswords." ++ user.user_type.jsToString) with
          | .error e =>
            exfalso
            simp [checkUserMain, checkUserBody, hu, hp, hdb, huser, hact, hsec,
              hpass, htype, hadm, invalidOutput] at hvalid
          | .ok adminPass =>
            by_cases hap : adminPass.truthy
            case neg =>
              exfalso
              simp [checkUserMain, checkUserBody, hu, hp, hdb, huser, hact, hsec,
                hpass, htype, hadm, hap, invalidOutput] at hvalid
            match htok : env.getToken with
            | .error e =>
              exfalso
              simp [checkUserMain, checkUserBody, hu, hp, hdb, huser, hact, hsec,
                hpass, htype, hadm, hap, htok, invalidOutput] at hvalid
            | .ok toks =>
              exact ⟨dbr, user, secret, adminPass, toks, rfl, huser, hact, rfl,
                hpass, htype, hadm, hap, rfl⟩

/-- Witness for C9 at concrete environments: one in which every call
succeeds (so the success conditions are extracted from `valid = true`),
and one in which the database call throws (so the outer catch returns the
invalid object). -/
theorem checkUser_fails_closed_witness :
    ((checkUserMain
        { reqUsername := .vstr "alice"
          reqPassword := .vstr "pw"
          dbGetById := .ok (.arr [⟨.vnum 1, .vstr "alice", .vstr "a@b.c",
            .vstr "admin", .vnum 2, .vstr "active", .vstr "enc"⟩])
          secretCommon := .ok (.vstr "sec")
          decrypt := fun _ _ => .ok "pw"
          secretAdminPass := fun _ => .ok (.vstr "adminpw")
          getToken := .ok [.vstr "t1", .vstr "t2"] }).valid = true →
      True) ∧
    checkUserMain
      { reqUsername := .vstr "alice"
        reqPassword := .vstr "pw"
        dbGetById := .error ()
        secretCommon := .ok (.vstr "sec")
        decrypt := fun _ _ => .ok "pw"
        secretAdminPass := fun _ => .ok (.vstr "adminpw")
        getToken := .ok [.vstr "t1", .vstr "t2"] } = invalidOutput := by
  constructor
  · intro h
    have hconds := (checkUser_fails_closed _).2 h
    trivial
  · exact (checkUser_fails_closed _).1 () rfl

/-- Claim C10: the check-user API returns `valid: true` only when the
stored user's `active` field is strictly the string value `active`; in
particular, for every users row whose `active` field holds a value of the
type the `public.users` schema declares for it (`EType.boolean`), the API
returns `valid: false`. -/
theorem checkUser_boolean_active_always_invalid (env : CheckUserEnv) :
    ((checkUserMain env).valid = true →
      ∃ dbr user, env.dbGetById = .ok dbr ∧ userFromDbResult dbr = some user ∧
        user.active = .vstr "active") ∧
    (∀ dbr user, env.dbGetById = .ok dbr → userFromDbResult dbr = some user →
      conformsTo usersSchemaActiveType user.active = true →
      (checkUserMain env).valid = false) := by
  constructor
  · intro hvalid
    obtain ⟨_, _, dbr, user, _, _, _, hdb, huser, hact, -⟩ :=
      (checkUser_fails_closed env).2 hvalid
    refine ⟨dbr, user, hdb, huser, ?_⟩
    cases hav : user.active <;>
      simp [hav, JSVal.strictEq] at hact ⊢
    exact hact
  · intro dbr user hdb huser hconf
    have hbool : ∃ b, user.active = .vbool b := by
      cases hav : user.active <;>
        simp [usersSchemaActiveType, conformsTo, hav] at hconf ⊢
    obtain ⟨b, hb⟩ := hbool
    have hact : user.active.strictEq (.vstr "active") = false := by
      rw [hb]
      rfl
    by_cases hvalid : (checkUserMain env).valid = true
    · exfalso
      obtain ⟨_, _, dbr2, user2, _, _, _, hdb2, huser2, hact2, -⟩ :=
        (checkUser_fails_closed env).2 hvalid
      rw [hdb] at hdb2
      cases hdb2
      rw [huser] at huser2
      cases huser2
      rw [hact] at hact2
      exact Bool.false_ne_true hact2
    · exact Bool.eq_false_iff.mpr hvalid

/-- Witness for C10 at a concrete environment: a users row whose `active`
field holds the boolean `true` — the type the schema declares — makes the
API return `valid: false`. -/
theorem checkUser_boolean_active_witness :
    (checkUserMain
      { reqUsername := .vstr "alice"
        reqPassword := .vstr "pw"
        dbGetById := .ok (.arr [⟨.vnum 1, .vstr "alice", .vstr "a@b.c",
          .vstr "admin", .vnum 2, .vbool true, .vstr "enc"⟩])
        secretCommon := .ok (.vstr "sec")
        decrypt := fun _ _ => .ok "pw"
        secretAdminPass := fun _ => .ok (.vstr "adminpw")
        getToken := .ok [.vstr "t1", .vstr "t2"] }).valid = false := by
  exact (checkUser_boolean_active_always_invalid _).2
    (.arr [⟨.vnum 1, .vstr "alice", .vstr "a@b.c", .vstr "admin", .vnum 2,
      .vbool true, .vstr "enc"⟩])
    ⟨.vnum 1, .vstr "alice", .vstr "a@b.c", .vstr "admin", .vnum 2,
      .vbool true, .vstr "enc"⟩
    rfl rfl rfl

end BataServer
